import Mathlib

/-!
Verification of `rig_ripper.py`: a Maya script that validates the current
selection, computes the joint hierarchy influencing the selected meshes, and
(as intended) deletes every other piece of geometry and every other joint.

The host scene graph is embedded shallowly: a scene is a list of nodes
(index = node id) carrying an object type, an optional parent node, and an
upstream construction-history list.  Skin bindings are association lists from
a skin-cluster node to its influence joints and per-(cluster, item, joint)
weights.  Parent links are required to point to strictly smaller indices
(predicate `parentsWF`), which is the well-formedness discipline justifying
the fuel bounds used to translate the script's parent-chain `while` loops
into structural recursion.

Python-level failures are made explicit: `Err.nameError n` models evaluating
an unbound name `n` (the script imports only `pymel` and `cmds`, so the bare
name `mel` used by the deletion stages is unbound), and `Err.indexError`
models `[...][0]` applied to an empty list (the skin-cluster lookup).
-/

namespace RigRipper

/-- Maya object types relevant to the script (everything else is `other`). -/
inductive ObjType where
  | mesh
  | joint
  | transform
  | skinCluster
  | other
deriving DecidableEq

/-- One scene-graph node: its type, its parent (if any), and the node ids of
its upstream construction history (what `pymel.listHistory` returns besides
the node itself). -/
structure Node where
  objType : ObjType
  parent : Option Nat
  history : List Nat
deriving DecidableEq

/-- The host scene: nodes indexed by position, skin-cluster influence lists,
per-(cluster, item, joint) skin weights, the current selection, and the set
of node ids already deleted. -/
structure Scene where
  nodes : List Node
  skinInfluences : List (Nat × List Nat)
  skinWeights : List ((Nat × Nat × Nat) × ℚ)
  selected : List Nat
  deleted : List Nat
deriving DecidableEq

/-- `pymel.objectType(i)` (for a node id present in the scene). -/
def objectType (s : Scene) (i : Nat) : Option ObjType :=
  (s.nodes[i]?).map (·.objType)

/-- `pymel.listRelatives(i, parent=True)` as an optional parent node id. -/
def parentOf (s : Scene) (i : Nat) : Option Nat :=
  (s.nodes[i]?).bind (·.parent)

/-- `pymel.listHistory(i)`: the node itself followed by its upstream history. -/
def listHistory (s : Scene) (i : Nat) : List Nat :=
  i :: ((s.nodes[i]?).map (·.history)).getD []

/-- `pymel.ls(pymel.listHistory(i), type='skinCluster')`. -/
def skinClustersOf (s : Scene) (i : Nat) : List Nat :=
  (listHistory s i).filter fun n => decide (objectType s n = some ObjType.skinCluster)

/-- `pymel.skinCluster(sc, query=True, inf=True)`: the influence joints of a
skin cluster. -/
def clusterInfluences (s : Scene) (sc : Nat) : List Nat :=
  (((s.skinInfluences.find? fun e => e.1 == sc).map (·.2)).getD [])

/-- `pymel.skinPercent(sc, vert, transform=j, query=True)`: the skin weight
of joint `j` on item `vert` under cluster `sc` (0 when unrecorded). -/
def skinPercent (s : Scene) (sc vert j : Nat) : ℚ :=
  (((s.skinWeights.find? fun e => e.1 == (sc, vert, j)).map (·.2)).getD 0)

/-- `pymel.ls(type='joint')`: all live joint node ids, in scene order. -/
def allJoints (s : Scene) : List Nat :=
  (List.range s.nodes.length).filter fun i =>
    decide (i ∉ s.deleted ∧ objectType s i = some ObjType.joint)

/-- `pymel.ls(type='mesh')`: all live mesh node ids, in scene order. -/
def lsMeshes (s : Scene) : List Nat :=
  (List.range s.nodes.length).filter fun i =>
    decide (i ∉ s.deleted ∧ objectType s i = some ObjType.mesh)

/-- Scene-graph well-formedness: every parent link points to a strictly
smaller node id.  Any forest can be indexed this way; it rules out parent
cycles and bounds every upward walk from node `p` by `p + 1` steps. -/
def parentsWF (s : Scene) : Bool :=
  (List.range s.nodes.length).all fun i =>
    match parentOf s i with
    | none => true
    | some p => decide (p < i)

/-- Python-level runtime errors the script can raise. -/
inductive Err where
  | nameError (name : String)
  | indexError
deriving DecidableEq

/-- The names bound at module scope of `rig_ripper.py`: the script's only
imports are `import pymel.all as pymel` and `import maya.cmds as cmds`. -/
def importedNames : List String := ["pymel", "cmds"]

/-- Evaluating a bare name at module scope: unbound names raise `NameError`. -/
def resolveName (n : String) : Except Err Unit :=
  if n ∈ importedNames then .ok () else .error (.nameError n)

/-- An element of the Python list `joint_hierarchy`: influential joints are
appended as bare nodes (`joint_hierarchy.append(j)`), while ancestors are
appended as the one-element list returned by `listRelatives(…, parent=True)`
(`joint_hierarchy.append(joint_parent)`).  The two are distinct Python
values, which matters for the `not in` membership tests. -/
inductive Entry where
  | node (j : Nat)
  | single (j : Nat)
deriving DecidableEq

/-- The joint id held by a hierarchy entry. -/
def entryJoint : Entry → Nat
  | .node j => j
  | .single j => j

/-- `validate_selection` (lines 11-28): walks the selection, returning
`(False, geometry-so-far, [warning])` at the first non-mesh item, and
`(True, all items, [])` otherwise.  The third component records the
`pymel.warning` side effect. -/
def validateSelection (s : Scene) : List Nat → Bool × List Nat × List String
  | [] => (true, [], [])
  | i :: rest =>
    if objectType s i ≠ some ObjType.mesh then
      (false, [], ["please select only faces"])
    else
      let r := validateSelection s rest
      (r.1, i :: r.2.1, r.2.2)

/-- The inner `for j in all_joints` loop of `get_joint_hierarchy`
(lines 54-60): append `j` to the accumulator when `j` is an influence of the
cluster, its queried weight is positive, and it is not already present. -/
def influenceFold (s : Scene) (sc vert : Nat) (cluster_influences : List Nat) :
    List Nat → List Nat → List Nat
  | acc, [] => acc
  | acc, j :: rest =>
    influenceFold s sc vert cluster_influences
      (if j ∈ cluster_influences then
        (if 0 < skinPercent s sc vert j ∧ j ∉ acc then acc ++ [j] else acc)
      else acc) rest

/-- The `for vert in geometry` loop of `get_joint_hierarchy` (lines 50-60):
for each item, look up that item's own first upstream skin cluster
(`pymel.ls(pymel.listHistory(vert), type='skinCluster')[0]`, an `IndexError`
when the item has no skin cluster) and fold its influences. -/
def influentialLoop (s : Scene) (all_joints : List Nat) :
    List Nat → List Nat → Except Err (List Nat)
  | acc, [] => .ok acc
  | acc, vert :: rest =>
    match skinClustersOf s vert with
    | [] => .error .indexError
    | sc :: _ =>
      let cluster_influences := clusterInfluences s sc
      influentialLoop s all_joints
        (influenceFold s sc vert cluster_influences acc all_joints) rest

/-- The `while joint_parent:` loop of `get_joint_hierarchy` (lines 70-74),
starting at ancestor `p`: append the one-element list `[p]` unless already
present, then move to the parent of `p`.  Structural fuel stands in for the
unbounded loop; `p + 1` units suffice on any `parentsWF` scene because
parent ids strictly decrease. -/
def climbAux (s : Scene) : Nat → Nat → List Entry → List Entry
  | 0, _, acc => acc
  | fuel + 1, p, acc =>
    let acc' := if Entry.single p ∈ acc then acc else acc ++ [Entry.single p]
    match parentOf s p with
    | none => acc'
    | some q => climbAux s fuel q acc'

/-- The parent-chain walk from ancestor `p` with its canonical fuel. -/
def climb (s : Scene) (p : Nat) (acc : List Entry) : List Entry :=
  climbAux s (p + 1) p acc

/-- One iteration of the `for j in influential_joints` loop (lines 66-74):
append the influential joint itself, then walk its parent chain. -/
def addInfluential (s : Scene) (acc : List Entry) (j : Nat) : List Entry :=
  let acc1 := acc ++ [Entry.node j]
  match parentOf s j with
  | none => acc1
  | some p => climb s p acc1

/-- The `for j in influential_joints` loop (lines 66-74). -/
def hierarchyLoop (s : Scene) : List Entry → List Nat → List Entry
  | acc, [] => acc
  | acc, j :: rest => hierarchyLoop s (addInfluential s acc j) rest

/-- `joint_hierarchy` as built from the influential joints (lines 63-74). -/
def buildHierarchy (s : Scene) (influential_joints : List Nat) : List Entry :=
  hierarchyLoop s [] influential_joints

/-- The parent-chain walk of lines 70-74 instrumented with the list of
ancestors its `while` loop actually visits, one per iteration, in order.
The entry accumulator is computed exactly as in `climbAux`. -/
def climbTraceAux (s : Scene) : Nat → Nat → List Entry → List Entry × List Nat
  | 0, _, acc => (acc, [])
  | fuel + 1, p, acc =>
    let acc' := if Entry.single p ∈ acc then acc else acc ++ [Entry.single p]
    match parentOf s p with
    | none => (acc', [p])
    | some q =>
      let r := climbTraceAux s fuel q acc'
      (r.1, p :: r.2)

/-- One influential-joint step of lines 66-74 instrumented with the visit
list of its parent-chain walk. -/
def addInfluentialTrace (s : Scene) (acc : List Entry) (j : Nat) :
    List Entry × List Nat :=
  let acc1 := acc ++ [Entry.node j]
  match parentOf s j with
  | none => (acc1, [])
  | some p => climbTraceAux s (p + 1) p acc1

/-- The strict-ancestor chain of `j` (parent, grandparent, …), with the same
fuel discipline as the walks: `j + 1` units suffice on `parentsWF` scenes. -/
def chainAux (s : Scene) : Nat → Nat → List Nat
  | 0, _ => []
  | fuel + 1, j =>
    match parentOf s j with
    | none => []
    | some p => p :: chainAux s fuel p

/-- The strict-ancestor chain of `j` with its canonical fuel. -/
def ancestorChain (s : Scene) (j : Nat) : List Nat :=
  chainAux s (j + 1) j

/-- The `while True:` root search of lines 82-87: walk parent links from `j`
until a parentless node is reached. -/
def topAux (s : Scene) : Nat → Nat → Nat
  | 0, j => j
  | fuel + 1, j =>
    match parentOf s j with
    | none => j
    | some p => topAux s fuel p

/-- The topmost ancestor of `j` with its canonical fuel. -/
def topOf (s : Scene) (j : Nat) : Nat :=
  topAux s (j + 1) j

/-- The value of the Python name `j` after `get_joint_hierarchy`'s loops: the
last influential joint if any (line 66 loop); otherwise the last of
`all_joints` provided the line 50/54 loops ran at all; otherwise unbound. -/
def finalJ (s : Scene) (geometry influential_joints : List Nat) : Option Nat :=
  match influential_joints.getLast? with
  | some j => some j
  | none => if geometry.isEmpty then none else (allJoints s).getLast?

/-- `get_joint_hierarchy` (lines 30-88).  The first `for i in geometry` loop
(lines 41-42) overwrites `skin_clusters` each iteration and its result is
never read; it is kept as the dead binding `_skin_clusters`.  With
`root_request=False` the hierarchy list is returned; with `root_request=True`
the root search of lines 80-88 runs: each iteration starts from the leftover
loop variable `j`, and with an empty hierarchy the name `root` (or `j`) is
unbound at the `return`. -/
def getJointHierarchy (s : Scene) (geometry : List Nat) (rootRequest : Bool) :
    Except Err (List Entry × Option Nat) :=
  let _skin_clusters := (geometry.map fun i => skinClustersOf s i).getLast?
  let all_joints := allJoints s
  match influentialLoop s all_joints [] geometry with
  | .error e => .error e
  | .ok influential_joints =>
    let joint_hierarchy := buildHierarchy s influential_joints
    if rootRequest = false then .ok (joint_hierarchy, none)
    else if joint_hierarchy = [] then .error (.nameError "root")
    else
      match finalJ s geometry influential_joints with
      | none => .error (.nameError "j")
      | some j => .ok (joint_hierarchy, some (topOf s j))

/-- `mel.eval("invertSelection;")` as a selection transformer: every live,
unselected node becomes selected (dead code: `mel` is unbound). -/
def invertSelection (s : Scene) : Scene :=
  { s with selected := (List.range s.nodes.length).filter fun i =>
      decide (i ∉ s.deleted ∧ i ∉ s.selected) }

/-- `pymel.delete()` with no arguments: delete the selected nodes. -/
def deleteSelected (s : Scene) : Scene :=
  { s with deleted := s.deleted ++ s.selected, selected := [] }

/-- `pymel.delete(ns)`: delete the given nodes. -/
def deleteNodes (s : Scene) (ns : List Nat) : Scene :=
  { s with deleted := s.deleted ++ ns }

/-- First-occurrence deduplicating accumulation, as done by the
`if x not in acc: acc.append(x)` idiom of lines 106-119. -/
def dedupAppend (l : List (Option Nat)) : List (Option Nat) :=
  l.foldl (fun acc x => if x ∈ acc then acc else acc ++ [x]) []

/-- `isolate_geometry` (lines 90-122).  Its first statement evaluates the
bare name `mel`, which the script never imports, so the stage raises
`NameError` before mutating anything; the remaining statements (invert the
selection and delete it, then delete every mesh shell whose transform is not
a transform of the kept geometry) are translated but unreachable. -/
def isolateGeometry (s : Scene) (geometry : List Nat) : Except (Err × Scene) Scene :=
  match resolveName "mel" with
  | .error e => .error (e, s)
  | .ok _ =>
    let s1 := deleteSelected (invertSelection s)
    let all_mesh := lsMeshes s1
    let all_mesh_transforms := dedupAppend (all_mesh.map fun m => parentOf s1 m)
    let selection_shells := dedupAppend (geometry.map fun m => parentOf s1 m)
    let shells_for_delete :=
      all_mesh_transforms.filter fun t => decide (t ∉ selection_shells)
    .ok (deleteNodes s1 (shells_for_delete.filterMap id))

/-- `isolate_joint_hierarchy` (lines 124-135): select all joints, deselect
the kept hierarchy, then `mel.eval("doDelete")` — which evaluates the
unbound name `mel` and raises `NameError` after the selection updates but
before any deletion. -/
def isolateJointHierarchy (s : Scene) (joint_hierarchy : List Entry) :
    Except (Err × Scene) Scene :=
  let all_joints := allJoints s
  let s1 := { s with selected := all_joints }
  let kept := joint_hierarchy.map entryJoint
  let s2 := { s1 with selected := s1.selected.filter fun n => decide (n ∉ kept) }
  match resolveName "mel" with
  | .error e => .error (e, s2)
  | .ok _ => .ok (deleteSelected s2)

/-- The observable outcome of one `rip_rig` run: the warnings emitted, the
pipeline stages actually entered (in order), and either the final scene or
the first uncaught error together with the scene at the moment it was
raised. -/
structure RipResult where
  warnings : List String
  stagesRun : List String
  outcome : Except (Err × Scene) Scene

/-- `rip_rig` (lines 138-150): validate, and when the selection is valid and
`len(selection) == len(geometry)`, run `get_joint_hierarchy`,
`isolate_geometry`, `isolate_joint_hierarchy` in order, propagating the
first uncaught error. -/
def ripRig (s : Scene) (sel : List Nat) : RipResult :=
  match validateSelection s sel with
  | (valid, geometry, ws) =>
    if valid = true ∧ sel.length = geometry.length then
      match getJointHierarchy s geometry false with
      | .error e => ⟨ws, ["get_joint_hierarchy"], .error (e, s)⟩
      | .ok (joint_hierarchy, _) =>
        match isolateGeometry s geometry with
        | .error es => ⟨ws, ["get_joint_hierarchy", "isolate_geometry"], .error es⟩
        | .ok s2 =>
          match isolateJointHierarchy s2 joint_hierarchy with
          | .error es =>
            ⟨ws, ["get_joint_hierarchy", "isolate_geometry", "isolate_joint_hierarchy"],
              .error es⟩
          | .ok s3 =>
            ⟨ws, ["get_joint_hierarchy", "isolate_geometry", "isolate_joint_hierarchy"],
              .ok s3⟩
    else ⟨ws, [], .ok s⟩

/-- The module-level run (lines 9 and 153): `rip_rig` applied to the host's
current selection. -/
def runScript (s : Scene) : RipResult :=
  ripRig s s.selected

/-- A joint is influential for `geometry` exactly when the script's query
loop would record it: it is a scene joint, and for some selected item its
queried weight under that item's own first upstream skin cluster is strictly
positive. -/
def IsInfluential (s : Scene) (geometry : List Nat) (x : Nat) : Prop :=
  x ∈ allJoints s ∧ ∃ vert ∈ geometry, ∃ sc l,
    skinClustersOf s vert = sc :: l ∧ x ∈ clusterInfluences s sc ∧
    0 < skinPercent s sc vert x

/-- A concrete test scene.  Joints `0 ← 1 ← 2` and `0 ← 1 ← 14` form one
chain pair, `3 ← 4` a second chain, `5` is a stray joint.  Mesh `9` (under
transform `8`) is driven by skin cluster `6` with influences `[1, 2, 14]`
but positive weight only on `2` and `14`; mesh `11` (under transform `10`)
is driven by the disjoint cluster `7` with influence `[4]`; mesh `13`
(under transform `12`) has no skin cluster in its history. -/
def sceneA : Scene where
  nodes :=
    [ ⟨.joint, none, []⟩
    , ⟨.joint, some 0, []⟩
    , ⟨.joint, some 1, []⟩
    , ⟨.joint, none, []⟩
    , ⟨.joint, some 3, []⟩
    , ⟨.joint, none, []⟩
    , ⟨.skinCluster, none, []⟩
    , ⟨.skinCluster, none, []⟩
    , ⟨.transform, none, []⟩
    , ⟨.mesh, some 8, [6]⟩
    , ⟨.transform, none, []⟩
    , ⟨.mesh, some 10, [7]⟩
    , ⟨.transform, none, []⟩
    , ⟨.mesh, some 12, []⟩
    , ⟨.joint, some 1, []⟩ ]
  skinInfluences := [(6, [1, 2, 14]), (7, [4])]
  skinWeights := [((6, 9, 2), 1), ((6, 9, 1), 0), ((6, 9, 14), 1), ((7, 11, 4), 1)]
  selected := [9]
  deleted := []

/-- A concrete already-isolated scene: the only mesh shell is the selected
mesh `3` (under transform `2`, skinned by cluster `1`), and the only joint
is the influential root `0`.  A run that honoured the spec would have
nothing to delete here. -/
def sceneIso : Scene where
  nodes :=
    [ ⟨.joint, none, []⟩
    , ⟨.skinCluster, none, []⟩
    , ⟨.transform, none, []⟩
    , ⟨.mesh, some 2, [1]⟩ ]
  skinInfluences := [(1, [0])]
  skinWeights := [((1, 3, 0), 1)]
  selected := [3]
  deleted := []

/-- On a well-formed scene, parent links strictly decrease node ids. -/
theorem parent_lt {s : Scene} (hwf : parentsWF s = true) {i p : Nat}
    (h : parentOf s i = some p) : p < i := by
  by_cases hi : i < s.nodes.length
  · have hall := List.all_eq_true.mp hwf i (List.mem_range.mpr hi)
    rw [h] at hall
    exact of_decide_eq_true hall
  · rw [parentOf, List.getElem?_eq_none (Nat.le_of_not_lt hi)] at h
    simp at h

/-- `chainAux` does not depend on the fuel once it is at least `p + 1`. -/
theorem chainAux_congr {s : Scene} (hwf : parentsWF s = true) :
    ∀ p f1 f2, p + 1 ≤ f1 → p + 1 ≤ f2 → chainAux s f1 p = chainAux s f2 p := by
  intro p
  induction p using Nat.strong_induction_on with
  | _ p ih =>
    intro f1 f2 h1 h2
    match f1, f2, h1, h2 with
    | a + 1, b + 1, _, _ =>
      simp only [chainAux]
      cases hp : parentOf s p with
      | none => rfl
      | some q =>
        have hq := parent_lt hwf hp
        show q :: chainAux s a q = q :: chainAux s b q
        rw [ih q hq a b (by omega) (by omega)]

/-- The ancestor chain of a parentless node is empty. -/
theorem ancestorChain_eq_nil {s : Scene} {p : Nat} (hp : parentOf s p = none) :
    ancestorChain s p = [] := by
  simp [ancestorChain, chainAux, hp]

/-- Unfolding the ancestor chain one parent step. -/
theorem ancestorChain_eq_cons {s : Scene} (hwf : parentsWF s = true) {p q : Nat}
    (hp : parentOf s p = some q) :
    ancestorChain s p = q :: ancestorChain s q := by
  have hq := parent_lt hwf hp
  show chainAux s (p + 1) p = _
  simp only [chainAux, hp]
  rw [chainAux_congr hwf q p (q + 1) (by omega) (by omega)]
  rfl

/-- `topAux` does not depend on the fuel once it is at least `j + 1`. -/
theorem topAux_congr {s : Scene} (hwf : parentsWF s = true) :
    ∀ j f1 f2, j + 1 ≤ f1 → j + 1 ≤ f2 → topAux s f1 j = topAux s f2 j := by
  intro j
  induction j using Nat.strong_induction_on with
  | _ j ih =>
    intro f1 f2 h1 h2
    match f1, f2, h1, h2 with
    | a + 1, b + 1, _, _ =>
      simp only [topAux]
      cases hp : parentOf s j with
      | none => rfl
      | some p =>
        have hq := parent_lt hwf hp
        show topAux s a p = topAux s b p
        rw [ih p hq a b (by omega) (by omega)]

/-- The root search always ends at a parentless node. -/
theorem parentOf_topOf {s : Scene} (hwf : parentsWF s = true) (j : Nat) :
    parentOf s (topOf s j) = none := by
  induction j using Nat.strong_induction_on with
  | _ j ih =>
    show parentOf s (topAux s (j + 1) j) = none
    simp only [topAux]
    cases hp : parentOf s j with
    | none => exact hp
    | some p =>
      have hq := parent_lt hwf hp
      show parentOf s (topAux s j p) = none
      rw [topAux_congr hwf p j (p + 1) (by omega) (by omega)]
      exact ih p hq

/-- A list's `getLast?` value is a member of the list. -/
theorem mem_of_getLast?_eq {l : List Nat} {a : Nat} (h : l.getLast? = some a) :
    a ∈ l := by
  obtain ⟨hne, hx⟩ := List.mem_getLast?_eq_getLast (l := l) (x := a) h
  rw [hx]
  exact List.getLast_mem hne

/-- A single-entry in the accumulator contributes its joint id. -/
theorem entryJoint_mem_of_single {acc : List Entry} {p : Nat}
    (h : Entry.single p ∈ acc) : p ∈ acc.map entryJoint :=
  List.mem_map.mpr ⟨Entry.single p, h, rfl⟩

/-- Joint-level membership in `acc ++ [e]`. -/
theorem mem_map_append_single {acc : List Entry} {e : Entry} {a : Nat} :
    a ∈ (acc ++ [e]).map entryJoint ↔ a ∈ acc.map entryJoint ∨ a = entryJoint e := by
  simp [List.mem_append]

/-- Joint-level membership after the conditional append of `Entry.single p`. -/
theorem mem_accInsert {acc : List Entry} {p a : Nat} :
    a ∈ ((if Entry.single p ∈ acc then acc else acc ++ [Entry.single p]).map entryJoint) ↔
      a ∈ acc.map entryJoint ∨ a = p := by
  by_cases hmem : Entry.single p ∈ acc
  · rw [if_pos hmem]
    constructor
    · exact Or.inl
    · rintro (h | rfl)
      · exact h
      · exact entryJoint_mem_of_single hmem
  · rw [if_neg hmem]
    exact mem_map_append_single

/-- Joint-level membership characterisation of the parent-chain walk: the
walk adds exactly `p` and the ancestors of `p`. -/
theorem mem_climbAux {s : Scene} (hwf : parentsWF s = true) :
    ∀ p fuel acc a, p + 1 ≤ fuel →
      (a ∈ (climbAux s fuel p acc).map entryJoint ↔
        a ∈ acc.map entryJoint ∨ a = p ∨ a ∈ ancestorChain s p) := by
  intro p
  induction p using Nat.strong_induction_on with
  | _ p ih =>
    intro fuel acc a hf
    match fuel, hf with
    | f + 1, _ =>
      simp only [climbAux]
      cases hp : parentOf s p with
      | none =>
        rw [ancestorChain_eq_nil hp]
        show a ∈ ((if Entry.single p ∈ acc then acc
            else acc ++ [Entry.single p]).map entryJoint) ↔ _
        rw [mem_accInsert]
        simp
      | some q =>
        have hq := parent_lt hwf hp
        show a ∈ (climbAux s f q (if Entry.single p ∈ acc then acc
            else acc ++ [Entry.single p])).map entryJoint ↔ _
        rw [ih q hq f _ a (by omega), mem_accInsert, ancestorChain_eq_cons hwf hp]
        simp only [List.mem_cons]
        tauto

/-- The walk never removes entries from the accumulator. -/
theorem mem_climbAux_of_mem {s : Scene} :
    ∀ fuel p (acc : List Entry) (e : Entry), e ∈ acc → e ∈ climbAux s fuel p acc := by
  intro fuel
  induction fuel with
  | zero => intro p acc e h; exact h
  | succ f ihf =>
    intro p acc e h
    simp only [climbAux]
    have h' : e ∈ (if Entry.single p ∈ acc then acc else acc ++ [Entry.single p]) := by
      by_cases hmem : Entry.single p ∈ acc
      · rw [if_pos hmem]; exact h
      · rw [if_neg hmem]; exact List.mem_append_left _ h
    cases hp : parentOf s p with
    | none => exact h'
    | some q => exact ihf q _ e h'

/-- Joint-level membership characterisation of one influential-joint step:
it adds exactly `j` and the ancestors of `j`. -/
theorem mem_addInfluential {s : Scene} (hwf : parentsWF s = true)
    (acc : List Entry) (j a : Nat) :
    a ∈ (addInfluential s acc j).map entryJoint ↔
      a ∈ acc.map entryJoint ∨ a = j ∨ a ∈ ancestorChain s j := by
  unfold addInfluential
  cases hp : parentOf s j with
  | none =>
    rw [ancestorChain_eq_nil hp]
    show a ∈ ((acc ++ [Entry.node j]).map entryJoint) ↔ _
    rw [mem_map_append_single]
    simp [entryJoint]
  | some p =>
    show a ∈ (climb s p (acc ++ [Entry.node j])).map entryJoint ↔ _
    rw [climb, mem_climbAux hwf p (p + 1) _ a (by omega), mem_map_append_single,
      ancestorChain_eq_cons hwf hp]
    simp only [List.mem_cons, entryJoint]
    tauto

/-- One influential-joint step never removes entries. -/
theorem mem_addInfluential_of_mem {s : Scene} {acc : List Entry} {e : Entry} (j : Nat)
    (h : e ∈ acc) : e ∈ addInfluential s acc j := by
  unfold addInfluential
  have h1 : e ∈ acc ++ [Entry.node j] := List.mem_append_left _ h
  cases hp : parentOf s j with
  | none => exact h1
  | some p => exact mem_climbAux_of_mem _ _ _ _ h1

/-- Each influential joint is recorded as a bare-node entry. -/
theorem node_self_mem_addInfluential {s : Scene} (acc : List Entry) (j : Nat) :
    Entry.node j ∈ addInfluential s acc j := by
  unfold addInfluential
  have h1 : Entry.node j ∈ acc ++ [Entry.node j] :=
    List.mem_append_right _ (List.mem_singleton.mpr rfl)
  cases hp : parentOf s j with
  | none => exact h1
  | some p => exact mem_climbAux_of_mem _ _ _ _ h1

/-- The hierarchy loop never removes entries. -/
theorem mem_hierarchyLoop_of_mem {s : Scene} :
    ∀ (infl : List Nat) (acc : List Entry) (e : Entry), e ∈ acc →
      e ∈ hierarchyLoop s acc infl := by
  intro infl
  induction infl with
  | nil => intro acc e h; exact h
  | cons j rest ih => intro acc e h; exact ih _ e (mem_addInfluential_of_mem j h)

/-- Every influential joint appears as a bare-node entry of the hierarchy. -/
theorem node_mem_hierarchyLoop {s : Scene} :
    ∀ (infl : List Nat) (acc : List Entry) (j : Nat), j ∈ infl →
      Entry.node j ∈ hierarchyLoop s acc infl := by
  intro infl
  induction infl with
  | nil => intro acc j h; simp at h
  | cons k rest ih =>
    intro acc j h
    rcases List.mem_cons.mp h with rfl | h'
    · exact mem_hierarchyLoop_of_mem rest _ _ (node_self_mem_addInfluential acc j)
    · exact ih _ j h'

/-- Joint-level membership characterisation of the hierarchy loop. -/
theorem mem_hierarchyLoop {s : Scene} (hwf : parentsWF s = true) :
    ∀ (infl : List Nat) (acc : List Entry) (a : Nat),
      a ∈ (hierarchyLoop s acc infl).map entryJoint ↔
        a ∈ acc.map entryJoint ∨ ∃ j ∈ infl, a = j ∨ a ∈ ancestorChain s j := by
  intro infl
  induction infl with
  | nil => intro acc a; simp [hierarchyLoop]
  | cons j rest ih =>
    intro acc a
    show a ∈ (hierarchyLoop s (addInfluential s acc j) rest).map entryJoint ↔ _
    rw [ih, mem_addInfluential hwf, List.exists_mem_cons_iff]
    exact or_assoc

/-- Joint-level membership in the built hierarchy: exactly the influential
joints and their ancestors. -/
theorem mem_buildHierarchy {s : Scene} (hwf : parentsWF s = true)
    (infl : List Nat) (a : Nat) :
    a ∈ (buildHierarchy s infl).map entryJoint ↔
      ∃ j ∈ infl, a = j ∨ a ∈ ancestorChain s j := by
  rw [buildHierarchy, mem_hierarchyLoop hwf]
  simp

/-- The hierarchy is empty exactly when there are no influential joints. -/
theorem buildHierarchy_eq_nil_iff {s : Scene} (infl : List Nat) :
    buildHierarchy s infl = [] ↔ infl = [] := by
  constructor
  · intro h
    cases hi : infl with
    | nil => rfl
    | cons j rest =>
      have hj : Entry.node j ∈ buildHierarchy s infl := by
        rw [hi]
        exact node_mem_hierarchyLoop _ _ _ (List.mem_cons_self j rest)
      rw [h] at hj
      simp at hj
  · intro h
    rw [h]
    rfl

/-- Pointwise membership effect of one step of the inner influence loop. -/
theorem mem_influenceStep {s : Scene} {sc vert : Nat} {ci acc : List Nat} {j x : Nat} :
    x ∈ (if j ∈ ci then
          (if 0 < skinPercent s sc vert j ∧ j ∉ acc then acc ++ [j] else acc)
        else acc) ↔
      x ∈ acc ∨ (x = j ∧ j ∈ ci ∧ 0 < skinPercent s sc vert j) := by
  by_cases hc : j ∈ ci
  · rw [if_pos hc]
    by_cases hw : 0 < skinPercent s sc vert j
    · by_cases ha : j ∈ acc
      · rw [if_neg (by tauto)]
        constructor
        · exact Or.inl
        · rintro (h | ⟨rfl, _⟩)
          · exact h
          · exact ha
      · rw [if_pos ⟨hw, ha⟩]
        simp only [List.mem_append, List.mem_singleton]
        tauto
    · rw [if_neg (by tauto)]
      constructor
      · exact Or.inl
      · rintro (h | ⟨rfl, _, hww⟩)
        · exact h
        · exact absurd hww hw
  · rw [if_neg hc]
    constructor
    · exact Or.inl
    · rintro (h | ⟨rfl, hcc, _⟩)
      · exact h
      · exact absurd hcc hc

/-- Membership characterisation of the inner influence loop: it records
exactly the iterated joints that are influences with positive weight. -/
theorem mem_influenceFold {s : Scene} (sc vert : Nat) (ci : List Nat) :
    ∀ (js acc : List Nat) (x : Nat),
      x ∈ influenceFold s sc vert ci acc js ↔
        x ∈ acc ∨ (x ∈ js ∧ x ∈ ci ∧ 0 < skinPercent s sc vert x) := by
  intro js
  induction js with
  | nil => intro acc x; simp [influenceFold]
  | cons j rest ih =>
    intro acc x
    rw [influenceFold, ih, mem_influenceStep]
    simp only [List.mem_cons]
    constructor
    · rintro ((h | ⟨rfl, h1, h2⟩) | ⟨h1, h2, h3⟩)
      · exact Or.inl h
      · exact Or.inr ⟨Or.inl rfl, h1, h2⟩
      · exact Or.inr ⟨Or.inr h1, h2, h3⟩
    · rintro (h | ⟨rfl | h1, h2, h3⟩)
      · exact Or.inl (Or.inl h)
      · exact Or.inl (Or.inr ⟨rfl, h2, h3⟩)
      · exact Or.inr ⟨h1, h2, h3⟩

/-- Membership characterisation of the per-item influence loop on success. -/
theorem mem_influentialLoop_ok {s : Scene} (aj : List Nat) :
    ∀ (g acc res : List Nat), influentialLoop s aj acc g = .ok res →
      ∀ x, x ∈ res ↔ x ∈ acc ∨ ∃ vert ∈ g, ∃ sc l,
        skinClustersOf s vert = sc :: l ∧ x ∈ aj ∧ x ∈ clusterInfluences s sc ∧
        0 < skinPercent s sc vert x := by
  intro g
  induction g with
  | nil =>
    intro acc res h x
    simp only [influentialLoop, Except.ok.injEq] at h
    subst h
    simp
  | cons vert rest ih =>
    intro acc res h x
    cases hsc : skinClustersOf s vert with
    | nil =>
      rw [influentialLoop, hsc] at h
      exact absurd h (by simp)
    | cons sc l =>
      rw [influentialLoop, hsc] at h
      rw [ih _ _ h x, mem_influenceFold]
      constructor
      · rintro ((h0 | ⟨h1, h2, h3⟩) | ⟨v, hv, sc', l', hsc', h1, h2, h3⟩)
        · exact Or.inl h0
        · exact Or.inr ⟨vert, List.mem_cons_self vert rest, sc, l, hsc, h1, h2, h3⟩
        · exact Or.inr ⟨v, List.mem_cons_of_mem _ hv, sc', l', hsc', h1, h2, h3⟩
      · rintro (h0 | ⟨v, hv, sc', l', hsc', h1, h2, h3⟩)
        · exact Or.inl (Or.inl h0)
        · rcases List.mem_cons.mp hv with rfl | hv'
          · rw [hsc] at hsc'
            injection hsc' with e1 e2
            subst e1
            exact Or.inl (Or.inr ⟨h1, h2, h3⟩)
          · exact Or.inr ⟨v, hv', sc', l', hsc', h1, h2, h3⟩

/-- The per-item influence loop raises `IndexError` as soon as some item has
no skin cluster in its history. -/
theorem influentialLoop_error {s : Scene} (aj : List Nat) :
    ∀ (g acc : List Nat), (∃ vert ∈ g, skinClustersOf s vert = []) →
      influentialLoop s aj acc g = .error .indexError := by
  intro g
  induction g with
  | nil => intro acc h; simp at h
  | cons vert rest ih =>
    intro acc h
    cases hsc : skinClustersOf s vert with
    | nil => rw [influentialLoop, hsc]
    | cons sc l =>
      have h' : ∃ v ∈ rest, skinClustersOf s v = [] := by
        rcases h with ⟨v, hv, hvc⟩
        rcases List.mem_cons.mp hv with rfl | hv'
        · rw [hsc] at hvc
          simp at hvc
        · exact ⟨v, hv', hvc⟩
      rw [influentialLoop, hsc]
      exact ih _ h'

/-- The selection is valid exactly when every selected item is a mesh. -/
theorem validate_fst_true_iff {s : Scene} :
    ∀ sel : List Nat, (validateSelection s sel).1 = true ↔
      ∀ i ∈ sel, objectType s i = some ObjType.mesh := by
  intro sel
  induction sel with
  | nil => simp [validateSelection]
  | cons i rest ih =>
    simp only [validateSelection]
    by_cases hi : objectType s i = some ObjType.mesh
    · rw [if_neg (not_not_intro hi)]
      show (validateSelection s rest).1 = true ↔ _
      rw [ih]
      constructor
      · intro h x hx
        rcases List.mem_cons.mp hx with rfl | hx'
        · exact hi
        · exact h x hx'
      · intro h x hx
        exact h x (List.mem_cons_of_mem _ hx)
    · rw [if_pos hi]
      constructor
      · intro h
        exact absurd h (by simp)
      · intro h
        exact (hi (h i (List.mem_cons_self i rest))).elim

/-- A selection of meshes validates to itself with no warning. -/
theorem validate_all_mesh {s : Scene} :
    ∀ sel : List Nat, (∀ i ∈ sel, objectType s i = some ObjType.mesh) →
      validateSelection s sel = (true, sel, []) := by
  intro sel
  induction sel with
  | nil => intro _; rfl
  | cons i rest ih =>
    intro h
    have hi := h i (List.mem_cons_self i rest)
    simp only [validateSelection]
    rw [if_neg (not_not_intro hi), ih fun x hx => h x (List.mem_cons_of_mem _ hx)]

/-- What a valid validation result forces: the geometry list is the whole
selection, no warning was emitted, and everything selected is a mesh. -/
theorem validate_valid {s : Scene} {sel geometry : List Nat} {ws : List String}
    (h : validateSelection s sel = (true, geometry, ws)) :
    geometry = sel ∧ ws = [] ∧ ∀ i ∈ sel, objectType s i = some ObjType.mesh := by
  have hmesh : ∀ i ∈ sel, objectType s i = some ObjType.mesh := by
    rw [← validate_fst_true_iff sel, h]
  have heq := validate_all_mesh sel hmesh
  rw [heq] at h
  injection h with h1 h2
  injection h2 with h21 h22
  exact ⟨h21.symm, h22.symm, hmesh⟩

/-- An invalid selection: validation fails at the first non-mesh item,
returning the prefix of meshes before it and emitting exactly one warning. -/
theorem validate_invalid {s : Scene} :
    ∀ sel : List Nat, (∃ i ∈ sel, objectType s i ≠ some ObjType.mesh) →
      validateSelection s sel =
        (false, sel.takeWhile (fun i => decide (objectType s i = some ObjType.mesh)),
          ["please select only faces"]) := by
  intro sel
  induction sel with
  | nil => intro h; simp at h
  | cons i rest ih =>
    intro h
    simp only [validateSelection]
    by_cases hi : objectType s i = some ObjType.mesh
    · have h' : ∃ x ∈ rest, objectType s x ≠ some ObjType.mesh := by
        rcases h with ⟨x, hx, hxo⟩
        rcases List.mem_cons.mp hx with rfl | hx'
        · exact absurd hi hxo
        · exact ⟨x, hx', hxo⟩
      rw [if_neg (not_not_intro hi), ih h',
        List.takeWhile_cons_of_pos (by simp [hi])]
    · rw [if_pos hi, List.takeWhile_cons_of_neg (by simp [hi])]

/-- An invalid validation makes `rip_rig` return at once: only the warning
is emitted, no stage runs, and the scene is handed back untouched. -/
theorem ripRig_invalid {s : Scene} {sel : List Nat}
    (h : (validateSelection s sel).1 = false) :
    ripRig s sel = ⟨(validateSelection s sel).2.2, [], .ok s⟩ := by
  unfold ripRig
  split
  next valid geometry ws hveq =>
    rw [hveq] at h ⊢
    simp only at h
    rw [if_neg (by simp [h])]

/-- When validation succeeds, the lengths agree, and `get_joint_hierarchy`
raises, `rip_rig` stops inside that first stage with the scene untouched. -/
theorem ripRig_gjh_error {s : Scene} {sel geometry : List Nat} {ws : List String} {e : Err}
    (hv : validateSelection s sel = (true, geometry, ws))
    (hlen : sel.length = geometry.length)
    (hg : getJointHierarchy s geometry false = .error e) :
    ripRig s sel = ⟨ws, ["get_joint_hierarchy"], .error (e, s)⟩ := by
  unfold ripRig
  split
  next valid geometry' ws' hveq =>
    rw [hv] at hveq
    injection hveq with h1 h2
    injection h2 with h21 h22
    subst h1; subst h21; subst h22
    rw [if_pos ⟨rfl, hlen⟩, hg]

/-- When validation succeeds, the lengths agree, and `get_joint_hierarchy`
returns, `rip_rig` reaches `isolate_geometry`, which raises `NameError` on
the unbound name `mel` before mutating anything. -/
theorem ripRig_mel_error {s : Scene} {sel geometry : List Nat} {ws : List String}
    {jh : List Entry} {o : Option Nat}
    (hv : validateSelection s sel = (true, geometry, ws))
    (hlen : sel.length = geometry.length)
    (hg : getJointHierarchy s geometry false = .ok (jh, o)) :
    ripRig s sel =
      ⟨ws, ["get_joint_hierarchy", "isolate_geometry"], .error (.nameError "mel", s)⟩ := by
  unfold ripRig
  split
  next valid geometry' ws' hveq =>
    rw [hv] at hveq
    injection hveq with h1 h2
    injection h2 with h21 h22
    subst h1; subst h21; subst h22
    rw [if_pos ⟨rfl, hlen⟩, hg]
    rfl

/-- The instrumented walk computes the same entries as the plain walk and
visits exactly `p` followed by all ancestors of `p`: the loop keeps walking
to the root no matter what is already in the accumulator. -/
theorem climbTraceAux_spec {s : Scene} (hwf : parentsWF s = true) :
    ∀ p fuel acc, p + 1 ≤ fuel →
      climbTraceAux s fuel p acc = (climbAux s fuel p acc, p :: ancestorChain s p) := by
  intro p
  induction p using Nat.strong_induction_on with
  | _ p ih =>
    intro fuel acc hf
    match fuel, hf with
    | f + 1, hff =>
      simp only [climbTraceAux, climbAux]
      cases hp : parentOf s p with
      | none =>
        rw [ancestorChain_eq_nil hp]
      | some q =>
        have hq := parent_lt hwf hp
        simp only []
        rw [ih q hq f _ (by omega), ancestorChain_eq_cons hwf hp]

/-- Success of `get_joint_hierarchy` with `root_request=False` forces the
influence loop to have succeeded and determines the returned hierarchy. -/
theorem getJointHierarchy_false_ok {s : Scene} {geometry : List Nat}
    {jh : List Entry} {o : Option Nat}
    (h : getJointHierarchy s geometry false = .ok (jh, o)) :
    ∃ infl, influentialLoop s (allJoints s) [] geometry = .ok infl ∧
      jh = buildHierarchy s infl ∧ o = none := by
  simp only [getJointHierarchy] at h
  split at h
  next e heq => exact absurd h (by simp)
  next infl heq =>
    rw [if_pos trivial] at h
    injection h with hpair
    injection hpair with h1 h2
    exact ⟨infl, heq, h1.symm, h2.symm⟩

/-- Success of `get_joint_hierarchy` with `root_request=True` additionally
forces a nonempty hierarchy, and the returned root is the top ancestor of
the leftover loop variable `j` — the last influential joint. -/
theorem getJointHierarchy_true_ok {s : Scene} {geometry : List Nat}
    {jh : List Entry} {r : Nat}
    (h : getJointHierarchy s geometry true = .ok (jh, some r)) :
    ∃ infl j, influentialLoop s (allJoints s) [] geometry = .ok infl ∧
      jh = buildHierarchy s infl ∧ buildHierarchy s infl ≠ [] ∧
      infl.getLast? = some j ∧ r = topOf s j := by
  simp only [getJointHierarchy] at h
  split at h
  next e heq => exact absurd h (by simp)
  next infl heq =>
    rw [if_neg (by simp)] at h
    by_cases hne : buildHierarchy s infl = []
    · rw [if_pos hne] at h
      exact absurd h (by simp)
    · rw [if_neg hne] at h
      have hinfl_ne : infl ≠ [] := fun hn => hne (by rw [hn]; rfl)
      obtain ⟨j, hj⟩ : ∃ j, infl.getLast? = some j := by
        cases hgl : infl.getLast? with
        | none => exact absurd (List.getLast?_eq_none_iff.mp hgl) hinfl_ne
        | some j => exact ⟨j, rfl⟩
      have hfj : finalJ s geometry infl = some j := by
        simp only [finalJ, hj]
      simp only [hfj] at h
      injection h with hpair
      injection hpair with h1 h2
      injection h2 with h2'
      exact ⟨infl, j, heq, h1.symm, hne, hj, h2'.symm⟩

/-- `get_joint_hierarchy` raises `IndexError` whenever some geometry item
has no skin cluster in its history. -/
theorem getJointHierarchy_error_of_missing {s : Scene} {geometry : List Nat}
    (hbad : ∃ g ∈ geometry, skinClustersOf s g = []) (rq : Bool) :
    getJointHierarchy s geometry rq = .error .indexError := by
  simp only [getJointHierarchy, influentialLoop_error (allJoints s) geometry [] hbad]

/-- Top-level membership in the influential-joint list. -/
theorem mem_influential_iff {s : Scene} {geometry infl : List Nat}
    (h : influentialLoop s (allJoints s) [] geometry = .ok infl) (x : Nat) :
    x ∈ infl ↔ IsInfluential s geometry x := by
  rw [mem_influentialLoop_ok _ _ _ _ h x]
  simp only [List.not_mem_nil, false_or]
  unfold IsInfluential
  constructor
  · rintro ⟨v, hv, sc, l, hsc, hj, hc, hw⟩
    exact ⟨hj, v, hv, sc, l, hsc, hc, hw⟩
  · rintro ⟨hj, v, hv, sc, l, hsc, hc, hw⟩
    exact ⟨v, hv, sc, l, hsc, hj, hc, hw⟩

/-- A failed guard makes `rip_rig` return at once with the scene untouched. -/
theorem ripRig_not_taken {s : Scene} {sel : List Nat}
    (h : ¬((validateSelection s sel).1 = true ∧
        sel.length = (validateSelection s sel).2.1.length)) :
    ripRig s sel = ⟨(validateSelection s sel).2.2, [], .ok s⟩ := by
  unfold ripRig
  split
  next valid geometry ws hveq =>
    rw [hveq] at h ⊢
    simp only at h
    rw [if_neg h]

/-- Claim C1: for every valid all-mesh selection whose hierarchy computation
succeeds, the joint set computed by `get_joint_hierarchy` with
`root_request=False` is exactly the ancestor-closure of the influential
joints: a joint is in the returned set iff it is influential (strictly
positive queried weight for at least one selected item) or an ancestor of an
influential joint — and nothing else is. -/
theorem rip_C1 (s : Scene) (sel geometry : List Nat) (ws : List String)
    (jh : List Entry)
    (hwf : parentsWF s = true)
    (_hval : validateSelection s sel = (true, geometry, ws))
    (hok : getJointHierarchy s geometry false = .ok (jh, none)) :
    ∀ a, a ∈ jh.map entryJoint ↔
      IsInfluential s geometry a ∨
        ∃ k, IsInfluential s geometry k ∧ a ∈ ancestorChain s k := by
  obtain ⟨infl, hinf, hjh, -⟩ := getJointHierarchy_false_ok hok
  intro a
  rw [hjh, mem_buildHierarchy hwf]
  constructor
  · rintro ⟨j, hj, rfl | hcj⟩
    · exact Or.inl ((mem_influential_iff hinf a).mp hj)
    · exact Or.inr ⟨j, (mem_influential_iff hinf j).mp hj, hcj⟩
  · rintro (ha | ⟨k, hk, hck⟩)
    · exact ⟨a, (mem_influential_iff hinf a).mpr ha, Or.inl rfl⟩
    · exact ⟨k, (mem_influential_iff hinf k).mpr hk, Or.inr hck⟩

/-- C1 at a concrete scene: the returned joint set `[2, 1, 0, 14]` is the
closure of the influential joints `{2, 14}` of mesh `9`. -/
theorem rip_C1_witness :
    parentsWF sceneA = true ∧
    validateSelection sceneA [9] = (true, [9], []) ∧
    getJointHierarchy sceneA [9] false =
      .ok ([Entry.node 2, Entry.single 1, Entry.single 0, Entry.node 14], none) ∧
    (∀ a, a ∈ ([Entry.node 2, Entry.single 1, Entry.single 0,
        Entry.node 14].map entryJoint) ↔
      IsInfluential sceneA [9] a ∨
        ∃ k, IsInfluential sceneA [9] k ∧ a ∈ ancestorChain sceneA k) :=
  ⟨by decide, by rfl, by rfl,
    rip_C1 sceneA [9] [9] [] _ (by decide) (by rfl) (by rfl)⟩

/-- Claim C2: a selection containing a non-mesh object makes validation
return invalid (stopping at the first non-mesh item, geometry being the mesh
prefix before it), `rip_rig` emits exactly the one warning, invokes no
stage, and returns the scene unmodified. -/
theorem rip_C2 (s : Scene) (sel : List Nat)
    (hbad : ∃ i ∈ sel, objectType s i ≠ some ObjType.mesh) :
    (validateSelection s sel).1 = false ∧
    (validateSelection s sel).2.1 =
      sel.takeWhile (fun i => decide (objectType s i = some ObjType.mesh)) ∧
    (ripRig s sel).warnings = ["please select only faces"] ∧
    (ripRig s sel).stagesRun = [] ∧
    (ripRig s sel).outcome = .ok s := by
  have hv := validate_invalid sel hbad
  have h1 : (validateSelection s sel).1 = false := by rw [hv]
  have hr := ripRig_invalid h1
  exact ⟨h1, by rw [hv], by rw [hr, hv], by rw [hr], by rw [hr]⟩

/-- C2 at a concrete scene: selecting the joint `5`. -/
theorem rip_C2_witness :
    (∃ i ∈ [5], objectType sceneA i ≠ some ObjType.mesh) ∧
    (ripRig sceneA [5]).warnings = ["please select only faces"] ∧
    (ripRig sceneA [5]).stagesRun = [] ∧
    (ripRig sceneA [5]).outcome = .ok sceneA :=
  ⟨by decide, (rip_C2 sceneA [5] (by decide)).2.2⟩

/-- Claim C3: on a valid all-mesh selection (whose hierarchy computation
succeeds), `isolate_geometry` raises `NameError` on the unbound name `mel`
as its first action, so the run aborts with only the first two stages
entered — `isolate_joint_hierarchy` is never reached — and the abort scene
is the input scene: nothing, in particular no joint, was deleted. -/
theorem rip_C3 (s : Scene) (sel geometry : List Nat) (ws : List String)
    (jhp : List Entry × Option Nat)
    (hval : validateSelection s sel = (true, geometry, ws))
    (hok : getJointHierarchy s geometry false = .ok jhp) :
    isolateGeometry s geometry = .error (Err.nameError "mel", s) ∧
    (ripRig s sel).stagesRun = ["get_joint_hierarchy", "isolate_geometry"] ∧
    (ripRig s sel).outcome = .error (Err.nameError "mel", s) := by
  obtain ⟨hgeo, hws, hmesh⟩ := validate_valid hval
  have hlen : sel.length = geometry.length := by rw [hgeo]
  obtain ⟨jh, o⟩ := jhp
  have hr := ripRig_mel_error hval hlen hok
  exact ⟨rfl, by rw [hr], by rw [hr]⟩

/-- C3 at a concrete scene: the skinned mesh `9`. -/
theorem rip_C3_witness :
    validateSelection sceneA [9] = (true, [9], []) ∧
    getJointHierarchy sceneA [9] false =
      .ok ([Entry.node 2, Entry.single 1, Entry.single 0, Entry.node 14], none) ∧
    (isolateGeometry sceneA [9] = .error (Err.nameError "mel", sceneA) ∧
     (ripRig sceneA [9]).stagesRun = ["get_joint_hierarchy", "isolate_geometry"] ∧
     (ripRig sceneA [9]).outcome = .error (Err.nameError "mel", sceneA)) :=
  ⟨by rfl, by rfl, rip_C3 sceneA [9] [9] [] _ (by rfl) (by rfl)⟩

/-- Claim C4: whenever validation returns valid, every element of the
returned geometry list is a mesh and its length equals the selection's
length, so the `len(selection) == len(geometry)` guard in `rip_rig` never
rejects a valid validation result. -/
theorem rip_C4 (s : Scene) (sel geometry : List Nat) (ws : List String)
    (hval : validateSelection s sel = (true, geometry, ws)) :
    (∀ g ∈ geometry, objectType s g = some ObjType.mesh) ∧
    geometry.length = sel.length := by
  obtain ⟨hgeo, -, hmesh⟩ := validate_valid hval
  subst hgeo
  exact ⟨hmesh, rfl⟩

/-- C4 at a concrete scene: the two-mesh selection `[9, 11]`. -/
theorem rip_C4_witness :
    validateSelection sceneA [9, 11] = (true, [9, 11], []) ∧
    ((∀ g ∈ [9, 11], objectType sceneA g = some ObjType.mesh) ∧
      ([9, 11] : List Nat).length = ([9, 11] : List Nat).length) :=
  ⟨by rfl, rip_C4 sceneA [9, 11] [9, 11] [] (by rfl)⟩

/-- Claim C5: for a geometry set of two meshes bound to disjoint skin
deformers, influence discovery queries each item's weights against that
item's own first upstream skin deformer, so every joint with positive
weight under either mesh's deformer — and its whole ancestor chain — is
present in the kept joint set. -/
theorem rip_C5 (s : Scene) (m1 m2 sc1 sc2 : Nat) (l1 l2 : List Nat)
    (jh : List Entry)
    (hwf : parentsWF s = true)
    (h1 : skinClustersOf s m1 = sc1 :: l1)
    (h2 : skinClustersOf s m2 = sc2 :: l2)
    (_hdisj : ∀ j ∈ clusterInfluences s sc1, j ∉ clusterInfluences s sc2)
    (hok : getJointHierarchy s [m1, m2] false = .ok (jh, none)) :
    ∀ j ∈ allJoints s,
      ((j ∈ clusterInfluences s sc1 ∧ 0 < skinPercent s sc1 m1 j) ∨
       (j ∈ clusterInfluences s sc2 ∧ 0 < skinPercent s sc2 m2 j)) →
      j ∈ jh.map entryJoint ∧ ∀ a ∈ ancestorChain s j, a ∈ jh.map entryJoint := by
  obtain ⟨infl, hinf, hjh, -⟩ := getJointHierarchy_false_ok hok
  intro j hjal hcase
  have hji : IsInfluential s [m1, m2] j := by
    rcases hcase with ⟨hc, hw⟩ | ⟨hc, hw⟩
    · exact ⟨hjal, m1, by simp, sc1, l1, h1, hc, hw⟩
    · exact ⟨hjal, m2, by simp, sc2, l2, h2, hc, hw⟩
  constructor
  · rw [hjh, mem_buildHierarchy hwf]
    exact ⟨j, (mem_influential_iff hinf j).mpr hji, Or.inl rfl⟩
  · intro a ha
    rw [hjh, mem_buildHierarchy hwf]
    exact ⟨j, (mem_influential_iff hinf j).mpr hji, Or.inr ha⟩

/-- C5 at a concrete scene: meshes `9` and `11` with disjoint clusters `6`
and `7`; both chains `2,14 → 1 → 0` and `4 → 3` are kept. -/
theorem rip_C5_witness :
    parentsWF sceneA = true ∧
    skinClustersOf sceneA 9 = [6] ∧
    skinClustersOf sceneA 11 = [7] ∧
    (∀ j ∈ clusterInfluences sceneA 6, j ∉ clusterInfluences sceneA 7) ∧
    getJointHierarchy sceneA [9, 11] false =
      .ok ([Entry.node 2, Entry.single 1, Entry.single 0, Entry.node 14,
        Entry.node 4, Entry.single 3], none) ∧
    (∀ j ∈ allJoints sceneA,
      ((j ∈ clusterInfluences sceneA 6 ∧ 0 < skinPercent sceneA 6 9 j) ∨
       (j ∈ clusterInfluences sceneA 7 ∧ 0 < skinPercent sceneA 7 11 j)) →
      j ∈ ([Entry.node 2, Entry.single 1, Entry.single 0, Entry.node 14,
        Entry.node 4, Entry.single 3].map entryJoint) ∧
      ∀ a ∈ ancestorChain sceneA j,
        a ∈ ([Entry.node 2, Entry.single 1, Entry.single 0, Entry.node 14,
          Entry.node 4, Entry.single 3].map entryJoint)) :=
  ⟨by decide, by rfl, by rfl, by decide, by rfl,
    rip_C5 sceneA 9 11 6 7 [] [] _ (by decide) (by rfl) (by rfl) (by decide) (by rfl)⟩

/-- Claim C6 as stated is false on the code.  Concretely: after processing
influential joint `2`, the hierarchy contains `Entry.single 1`; the walk for
the next influential joint `14`, whose parent `1` is already present, still
visits `[1, 0]` — it proceeds past the already-present ancestor `1` up to
the root `0` instead of stopping at `1` as the claim requires. -/
theorem rip_C6_cex :
    Entry.single 1 ∈ buildHierarchy sceneA [2] ∧
    (addInfluentialTrace sceneA (buildHierarchy sceneA [2]) 14).2 = [1, 0] ∧
    (addInfluentialTrace sceneA (buildHierarchy sceneA [2]) 14).2 ≠ [1] :=
  ⟨by decide, by decide, by decide⟩

/-- Claim C6, amended: once an influential joint is added, the walk always
continues through its entire parent chain until no parent exists (the visit
list is exactly the full strict-ancestor chain, regardless of what the set
already contains); an already-present ancestor is merely skipped when
appending, and the resulting entry list is unchanged by the extra
traversal. -/
theorem rip_C6 (s : Scene) (hwf : parentsWF s = true) (acc : List Entry) (j : Nat) :
    (addInfluentialTrace s acc j).1 = addInfluential s acc j ∧
    (addInfluentialTrace s acc j).2 = ancestorChain s j := by
  unfold addInfluentialTrace addInfluential climb
  cases hp : parentOf s j with
  | none =>
    rw [ancestorChain_eq_nil hp]
    exact ⟨rfl, rfl⟩
  | some p =>
    simp only []
    rw [climbTraceAux_spec hwf p (p + 1) _ (by omega), ancestorChain_eq_cons hwf hp]
    exact ⟨rfl, rfl⟩

/-- C6 (amended) at a concrete scene. -/
theorem rip_C6_witness :
    parentsWF sceneA = true ∧
    ((addInfluentialTrace sceneA [] 2).1 = addInfluential sceneA [] 2 ∧
     (addInfluentialTrace sceneA [] 2).2 = ancestorChain sceneA 2) :=
  ⟨by decide, rip_C6 sceneA (by decide) [] 2⟩

/-- Claim C7: when `get_joint_hierarchy` is called with `root_request=True`
and returns a non-empty hierarchy with a root, the root is a parentless
node reached by walking parent links upward from a joint that is a member
of the computed hierarchy (in fact the last influential joint — the
leftover loop variable `j`). -/
theorem rip_C7 (s : Scene) (geometry : List Nat) (jh : List Entry) (r : Nat)
    (hwf : parentsWF s = true)
    (_hne : jh ≠ [])
    (hok : getJointHierarchy s geometry true = .ok (jh, some r)) :
    parentOf s r = none ∧ ∃ j0 ∈ jh.map entryJoint, r = topOf s j0 := by
  obtain ⟨infl, j, hinf, hjh, hbne, hlast, hr⟩ := getJointHierarchy_true_ok hok
  have hjmem : j ∈ infl := mem_of_getLast?_eq hlast
  have hnode : Entry.node j ∈ jh := by
    rw [hjh]
    exact node_mem_hierarchyLoop _ _ _ hjmem
  refine ⟨by rw [hr]; exact parentOf_topOf hwf j, j, ?_, hr⟩
  exact List.mem_map.mpr ⟨Entry.node j, hnode, rfl⟩

/-- C7 at a concrete scene: the root `0` is the top ancestor of the last
influential joint `14`, a member of the hierarchy. -/
theorem rip_C7_witness :
    ([Entry.node 2, Entry.single 1, Entry.single 0, Entry.node 14] ≠ ([] : List Entry)) ∧
    getJointHierarchy sceneA [9] true =
      .ok ([Entry.node 2, Entry.single 1, Entry.single 0, Entry.node 14], some 0) ∧
    (parentOf sceneA 0 = none ∧
      ∃ j0 ∈ ([Entry.node 2, Entry.single 1, Entry.single 0,
          Entry.node 14].map entryJoint),
        0 = topOf sceneA j0) :=
  ⟨by decide, by rfl, rip_C7 sceneA [9] _ 0 (by decide) (by decide) (by rfl)⟩

/-- Claim C8: `rip_rig` enters its pipeline (stages headed by
`get_joint_hierarchy`, leading to the deletion stages) iff validation
returned valid and `len(selection) == len(geometry)`; when either condition
fails it returns with no stage invoked and the scene unchanged. -/
theorem rip_C8 (s : Scene) (sel : List Nat) :
    ((ripRig s sel).stagesRun ≠ [] ↔
      ((validateSelection s sel).1 = true ∧
        sel.length = (validateSelection s sel).2.1.length)) ∧
    (((validateSelection s sel).1 = true ∧
        sel.length = (validateSelection s sel).2.1.length) →
      (ripRig s sel).stagesRun.head? = some "get_joint_hierarchy") ∧
    (¬((validateSelection s sel).1 = true ∧
        sel.length = (validateSelection s sel).2.1.length) →
      (ripRig s sel).stagesRun = [] ∧ (ripRig s sel).outcome = .ok s) := by
  by_cases hg : ((validateSelection s sel).1 = true ∧
      sel.length = (validateSelection s sel).2.1.length)
  · obtain ⟨h1, h2⟩ := hg
    rcases hveq : validateSelection s sel with ⟨valid, geometry, ws⟩
    rw [hveq] at h1 h2
    simp only at h1 h2
    subst h1
    have hstage : (ripRig s sel).stagesRun.head? = some "get_joint_hierarchy" := by
      cases hjres : getJointHierarchy s geometry false with
      | error e =>
        rw [ripRig_gjh_error hveq h2 hjres]
        rfl
      | ok p =>
        obtain ⟨jh, o⟩ := p
        rw [ripRig_mel_error hveq h2 hjres]
        rfl
    have hsne : (ripRig s sel).stagesRun ≠ [] := by
      intro hnil
      rw [hnil] at hstage
      exact absurd hstage (by simp)
    exact ⟨⟨fun _ => ⟨rfl, h2⟩, fun _ => hsne⟩, fun _ => hstage,
      fun hcon => (hcon ⟨rfl, h2⟩).elim⟩
  · have hr := ripRig_not_taken hg
    have hnil : (ripRig s sel).stagesRun = [] := by rw [hr]
    exact ⟨⟨fun hne => (hne hnil).elim, fun hgg => (hg hgg).elim⟩,
      fun hgg => (hg hgg).elim, fun _ => ⟨hnil, by rw [hr]⟩⟩

/-- C8 at a concrete scene: the invalid selection `[5]` invokes nothing. -/
theorem rip_C8_witness :
    ¬((validateSelection sceneA [5]).1 = true ∧
      ([5] : List Nat).length = (validateSelection sceneA [5]).2.1.length) ∧
    ((ripRig sceneA [5]).stagesRun = [] ∧ (ripRig sceneA [5]).outcome = .ok sceneA) :=
  ⟨by decide, (rip_C8 sceneA [5]).2.2 (by decide)⟩

/-- Claim C9: on a valid mesh selection containing an item with no skin
cluster in its upstream history, `get_joint_hierarchy` raises the uncaught
`IndexError` of the empty skin-cluster lookup, so the run terminates with
only that stage entered — before any deletion stage — and the scene is
handed back untouched. -/
theorem rip_C9 (s : Scene) (sel : List Nat)
    (hmesh : ∀ i ∈ sel, objectType s i = some ObjType.mesh)
    (hbad : ∃ g ∈ sel, skinClustersOf s g = []) :
    (ripRig s sel).stagesRun = ["get_joint_hierarchy"] ∧
    (ripRig s sel).outcome = .error (Err.indexError, s) := by
  have hv := validate_all_mesh sel hmesh
  have hg := getJointHierarchy_error_of_missing hbad false
  have hr := ripRig_gjh_error hv rfl hg
  exact ⟨by rw [hr], by rw [hr]⟩

/-- C9 at a concrete scene: mesh `13` has no skin cluster. -/
theorem rip_C9_witness :
    (∀ i ∈ [9, 13], objectType sceneA i = some ObjType.mesh) ∧
    (∃ g ∈ [9, 13], skinClustersOf sceneA g = []) ∧
    ((ripRig sceneA [9, 13]).stagesRun = ["get_joint_hierarchy"] ∧
     (ripRig sceneA [9, 13]).outcome = .error (Err.indexError, sceneA)) :=
  ⟨by decide, by decide, rip_C9 sceneA [9, 13] (by decide) (by decide)⟩

/-- Claim C10 concerns re-running the pipeline on an already-isolated scene.
As written the code cannot exhibit the claimed no-op second run: on the
already-isolated scene `sceneIso` with its sole mesh `3` selected (a state
in which a spec-conformant run would find empty geometry and joint deletion
sets), `rip_rig` aborts inside `isolate_geometry` with `NameError` on the
unbound name `mel` — the script never imports `maya.mel` — as does every
run on a valid skinned selection, so no "first successful run" exists
either.  The scene survives only because the stage crashes before its
deletions. -/
theorem rip_C10 :
    ripRig sceneIso [3] =
      ⟨[], ["get_joint_hierarchy", "isolate_geometry"],
        .error (Err.nameError "mel", sceneIso)⟩ := by
  rfl

end RigRipper
